import Mathlib

/-!
Formal model of the Social-Media-Agent engagement pipeline.

This development embeds the core algorithms of the repository
(`src/media_agent/...`) as executable Lean definitions and proves the
specified properties about them:

* the FAQ matcher (`content/faq_matcher.py`),
* the auto-responder's FAQ selection step (`engagement/auto_response.py`),
* the lead relevance scorer and dedup/sort/truncate pipeline
  (`discovery/discovery.py`),
* the post scheduler's publish paths and one-shot job store
  (`scheduler/scheduler.py`),
* the Twitter adapter's login boundary (`platforms/twitter.py`).

Modelling conventions:

* Python strings are modelled as `String`/`List Char`; `str.lower` is
  modelled with `Char.toLower` (exact on the ASCII range, which covers all
  registry names and all concrete inputs used here).
* Python float arithmetic on scores is modelled exactly over `ℚ`
  (the scoring formulas are specified in real arithmetic).
* Fallible calls (browser automation, the generation service) are modelled
  by explicit outcome parameters; a caught exception becomes an explicit
  branch, an uncaught one an `Except.error` result.
-/

namespace SocialMediaAgent

/-! ### Python string primitives (on `List Char`) -/

/-- Python `str.lower` on the character list of a string (ASCII-exact). -/
def lowerChars (s : String) : List Char :=
  s.toList.map Char.toLower

/-- Python `needle in hay` (contiguous substring test; an empty needle is
contained in every string). -/
def pyContains : List Char → List Char → Bool
  | [], needle => needle.isEmpty
  | c :: t, needle => needle.isPrefixOf (c :: t) || pyContains t needle

/-- Helper for `pyCount`: number of non-overlapping occurrences of the
non-empty needle `n :: ns`, scanning left to right. -/
def pyCountPos (n : Char) (ns : List Char) : List Char → Nat
  | [] => 0
  | c :: rest =>
    if (n :: ns).isPrefixOf (c :: rest) then
      pyCountPos n ns (rest.drop ns.length) + 1
    else
      pyCountPos n ns rest
termination_by l => l.length
decreasing_by
  · simp only [List.length_drop, List.length_cons]
    omega
  · simp only [List.length_cons]
    omega

/-- Python `hay.count(needle)`: non-overlapping occurrences scanned left to
right; an empty needle is counted `len(hay) + 1` times, as in Python. -/
def pyCount (hay needle : List Char) : Nat :=
  match needle with
  | [] => hay.length + 1
  | n :: ns => pyCountPos n ns hay

/-- Split a character list at every character satisfying `p`, keeping empty
segments (the behaviour of Python `str.split(sep)` for a one-char `sep`). -/
def splitOnCharAux (p : Char → Bool) : List Char → List Char → List (List Char)
  | [], cur => [cur.reverse]
  | c :: rest, cur =>
    if p c then cur.reverse :: splitOnCharAux p rest []
    else splitOnCharAux p rest (c :: cur)

/-- See `splitOnCharAux`. -/
def splitOnChar (p : Char → Bool) (l : List Char) : List (List Char) :=
  splitOnCharAux p l []

/-- Python `str.strip()` (whitespace strip on both ends). -/
def pyStrip (l : List Char) : List Char :=
  ((l.dropWhile Char.isWhitespace).reverse.dropWhile Char.isWhitespace).reverse

/-- Python `str.split()` with no argument: split on whitespace runs,
dropping empty segments. -/
def pySplitWs (l : List Char) : List (List Char) :=
  (splitOnChar Char.isWhitespace l).filter (fun w => !w.isEmpty)

/-! ### FAQ matcher (`content/faq_matcher.py`) -/

/-- An FAQ record (`models.FAQ` as consumed by the matcher): question text,
answer text, comma-delimited keyword list (`None` keywords are normalised
to `""` by the callers via `faq.keywords or ""`). -/
structure FAQ where
  question : String
  answer : String
  keywords : String
  deriving DecidableEq, Repr

/-- `FAQMatcher._calculate_keyword_score`: fraction of the comma-delimited,
stripped, lower-cased keywords that occur as substrings of the lower-cased
query; `0` when the keyword string is empty. -/
def calcKeywordScore (query faqKeywords : String) : ℚ :=
  if faqKeywords = "" then 0
  else
    let queryLower := lowerChars query
    let keywords := (splitOnChar (fun c => c == ',') faqKeywords.toList).map
      (fun k => (pyStrip k).map Char.toLower)
    let numMatches := (keywords.filter (fun kw => pyContains queryLower kw)).length
    if keywords.length = 0 then 0 else (numMatches : ℚ) / (keywords.length : ℚ)

/-- `FAQMatcher._calculate_text_similarity`: size of the intersection of the
lower-cased whitespace-token sets divided by the size of the larger set;
`0` when either set is empty. -/
def calcTextSimilarity (query question : String) : ℚ :=
  let queryWords := (pySplitWs (lowerChars query)).dedup
  let questionWords := (pySplitWs (lowerChars question)).dedup
  if queryWords = [] ∨ questionWords = [] then 0
  else
    let inter := (queryWords.filter (fun w => questionWords.contains w)).length
    (inter : ℚ) / ((max queryWords.length questionWords.length : ℕ) : ℚ)

/-- The combined score `0.6 * keywordScore + 0.4 * similarityScore` computed
inside `FAQMatcher.find_matching_faq` for one FAQ. -/
def combinedScore (query : String) (faq : FAQ) : ℚ :=
  calcKeywordScore query faq.keywords * (6/10) +
    calcTextSimilarity query faq.question * (4/10)

/-- `FAQMatcher.min_score_threshold`. -/
def minScoreThreshold : ℚ := 3/10

/-- One iteration of the `for faq in faqs` loop of
`FAQMatcher.find_matching_faq`: keep the running best, replacing it only on
a strictly larger combined score. -/
def faqStep (query : String) (acc : Option FAQ × ℚ) (faq : FAQ) : Option FAQ × ℚ :=
  let cs := combinedScore query faq
  if acc.2 < cs then (some faq, cs) else acc

/-- `FAQMatcher.find_matching_faq`: fold the loop over the FAQ list starting
from `(None, 0.0)`; return the `(best_match, best_score)` pair only when the
best score reaches the threshold. -/
def findMatchingFAQ (faqs : List FAQ) (query : String) : Option (Option FAQ × ℚ) :=
  let best := faqs.foldl (faqStep query) (none, 0)
  if minScoreThreshold ≤ best.2 then some best else none

example : pyContains (lowerChars "How does it work?") (lowerChars "work") = true := by decide

example :
    findMatchingFAQ [⟨"How does this work?", "It works great!", "how, work"⟩]
      "How does it work?" =
      some (some ⟨"How does this work?", "It works great!", "how, work"⟩, 9/10) := by
  with_unfolding_all decide

example : findMatchingFAQ [⟨"hello", "hi there", ""⟩] "hello world" = none := by
  with_unfolding_all decide

/-- Behaviour of the `find_matching_faq` fold from an arbitrary accumulator:
either no FAQ strictly beats the accumulator (which is then returned
unchanged), or the fold returns the first FAQ that attains the maximum of
the running scores. -/
theorem faqFold_spec (query : String) (l : List FAQ) :
    ∀ acc : Option FAQ × ℚ,
      (l.foldl (faqStep query) acc = acc ∧
        ∀ f ∈ l, combinedScore query f ≤ acc.2) ∨
      (∃ l₁ r l₂, l = l₁ ++ r :: l₂ ∧
        (l.foldl (faqStep query) acc).1 = some r ∧
        (l.foldl (faqStep query) acc).2 = combinedScore query r ∧
        acc.2 < combinedScore query r ∧
        (∀ f ∈ l₁, combinedScore query f < combinedScore query r) ∧
        (∀ f ∈ l₂, combinedScore query f ≤ combinedScore query r)) := by
  induction l with
  | nil => intro acc; exact Or.inl ⟨rfl, by simp⟩
  | cons f l ih =>
    intro acc
    rw [List.foldl_cons]
    by_cases h : acc.2 < combinedScore query f
    · have hstep : faqStep query acc f = (some f, combinedScore query f) := by
        simp [faqStep, h]
      rw [hstep]
      rcases ih (some f, combinedScore query f) with ⟨heq, hle⟩ |
        ⟨l₁, r, l₂, hsplit, h1, h2, hlt, hle1, hle2⟩
      · refine Or.inr ⟨[], f, l, by simp, ?_, ?_, h, by simp, ?_⟩
        · rw [heq]
        · rw [heq]
        · intro g hg
          exact hle g hg
      · refine Or.inr ⟨f :: l₁, r, l₂, by rw [hsplit, List.cons_append], h1, h2,
          lt_trans h hlt, ?_, hle2⟩
        intro g hg
        rcases List.mem_cons.mp hg with hg | hg
        · subst hg; exact hlt
        · exact hle1 g hg
    · have hstep : faqStep query acc f = acc := by
        simp [faqStep, h]
      rw [hstep]
      rcases ih acc with ⟨heq, hle⟩ | ⟨l₁, r, l₂, hsplit, h1, h2, hlt, hle1, hle2⟩
      · refine Or.inl ⟨heq, ?_⟩
        intro g hg
        rcases List.mem_cons.mp hg with hg | hg
        · subst hg; exact le_of_not_lt h
        · exact hle g hg
      · refine Or.inr ⟨f :: l₁, r, l₂, by rw [hsplit, List.cons_append], h1, h2, hlt, ?_, hle2⟩
        intro g hg
        rcases List.mem_cons.mp hg with hg | hg
        · subst hg; exact lt_of_le_of_lt (le_of_not_lt h) hlt
        · exact hle1 g hg

/-- **C5.** `find_matching_faq` returns at most one record (its result is an
`Option`); when it returns the pair `(best_match, best_score)`, the record
is present, its combined score (`0.6 * keywordScore + 0.4 * similarityScore`)
equals the returned score, reaches the `0.3` threshold and is the maximum
combined score over the FAQ set, with the tie broken in favour of the first
record in iteration order; when every combined score is below the
threshold, no match is returned. -/
theorem faq_matcher_max_threshold (faqs : List FAQ) (query : String) :
    (∀ pr, findMatchingFAQ faqs query = some pr →
      ∃ r, pr.1 = some r ∧ pr.2 = combinedScore query r ∧
        minScoreThreshold ≤ combinedScore query r ∧
        (∀ f ∈ faqs, combinedScore query f ≤ combinedScore query r) ∧
        ∃ l₁ l₂, faqs = l₁ ++ r :: l₂ ∧
          ∀ f ∈ l₁, combinedScore query f < combinedScore query r) ∧
    ((∀ f ∈ faqs, combinedScore query f < minScoreThreshold) →
      findMatchingFAQ faqs query = none) := by
  have hdef : findMatchingFAQ faqs query =
      if minScoreThreshold ≤ (faqs.foldl (faqStep query) (none, 0)).2 then
        some (faqs.foldl (faqStep query) (none, 0))
      else none := rfl
  constructor
  · intro pr hpr
    rw [hdef] at hpr
    split at hpr
    case isTrue hth =>
      cases hpr
      rcases faqFold_spec query faqs (none, 0) with ⟨heq, _⟩ |
        ⟨l₁, r, l₂, hsplit, h1, h2, _, hle1, hle2⟩
      · rw [heq] at hth
        norm_num [minScoreThreshold] at hth
      · refine ⟨r, h1, h2, by rw [h2] at hth; exact hth, ?_, l₁, l₂, hsplit, hle1⟩
        intro f hf
        rw [hsplit] at hf
        rcases List.mem_append.mp hf with hf | hf
        · exact le_of_lt (hle1 f hf)
        · rcases List.mem_cons.mp hf with hf | hf
          · subst hf; exact le_refl _
          · exact hle2 f hf
    case isFalse => exact absurd hpr (by simp)
  · intro hall
    rw [hdef]
    rcases faqFold_spec query faqs (none, 0) with ⟨heq, _⟩ |
      ⟨l₁, r, l₂, hsplit, _, h2, _, _, _⟩
    · rw [heq]
      norm_num [minScoreThreshold]
    · have hr : r ∈ faqs := by rw [hsplit]; exact List.mem_append_right _ (List.mem_cons_self _ _)
      rw [if_neg]
      rw [h2]
      exact not_le.mpr (hall r hr)

/-- Concrete FAQ record used to instantiate the matcher theorems (the §8
example of the specification). -/
def faqExample : FAQ := ⟨"How does this work?", "It works great!", "how, work"⟩

/-- Witness for `faq_matcher_max_threshold`: the matcher applied to the §8
example query returns the example record with score `9/10`. -/
theorem faq_matcher_max_threshold_witness :
    ∃ r, some faqExample = some r ∧
      (9 : ℚ)/10 = combinedScore "How does it work?" r ∧
      minScoreThreshold ≤ combinedScore "How does it work?" r ∧
      (∀ f ∈ [faqExample], combinedScore "How does it work?" f ≤
        combinedScore "How does it work?" r) ∧
      ∃ l₁ l₂, [faqExample] = l₁ ++ r :: l₂ ∧
        ∀ f ∈ l₁, combinedScore "How does it work?" f <
          combinedScore "How does it work?" r :=
  (faq_matcher_max_threshold [faqExample] "How does it work?").1
    (some faqExample, (9 : ℚ)/10) (by with_unfolding_all decide)

/-! ### Auto-responder FAQ selection (`engagement/auto_response.py`) -/

/-- `AutoResponder._keyword_match`: true when some comma-delimited,
stripped, lower-cased, non-empty segment of `keywords` is a substring of
the lower-cased text; false for an empty keyword string. -/
def keywordMatch (text keywords : String) : Bool :=
  if keywords = "" then false
  else
    let textLower := lowerChars text
    (splitOnChar (fun c => c == ',') keywords.toList).any (fun kw =>
      let k := (pyStrip kw).map Char.toLower
      !k.isEmpty && pyContains textLower k)

/-- The FAQ-selection predicate of `AutoResponder._process_mention`: a FAQ
matches a mention when `_keyword_match` fires on its question text or on
its keyword list (`faq.keywords or ""`). -/
def responderMatches (text : String) (faq : FAQ) : Bool :=
  keywordMatch text faq.question || keywordMatch text faq.keywords

/-- The FAQ-selection loop of `AutoResponder._process_mention`: the first
FAQ satisfying `responderMatches`, if any. -/
def selectFAQ (faqs : List FAQ) (text : String) : Option FAQ :=
  faqs.find? (responderMatches text)

/-- The FAQ branch of `AutoResponder._process_mention`: the matched FAQ's
answer verbatim, tagged with the response-source string
`"FAQ: " ++ question`. -/
def processMentionFAQResponse (faqs : List FAQ) (text : String) :
    Option (String × String) :=
  (selectFAQ faqs text).map (fun faq => (faq.answer, "FAQ: " ++ faq.question))

/-- `List.find?` returns the first element satisfying the predicate. -/
theorem find?_first {α : Type _} (p : α → Bool) :
    ∀ (l : List α) (a : α), l.find? p = some a →
      p a = true ∧ ∃ l₁ l₂, l = l₁ ++ a :: l₂ ∧ ∀ x ∈ l₁, p x = false := by
  intro l
  induction l with
  | nil => intro a h; simp at h
  | cons x l ih =>
    intro a h
    by_cases hx : p x = true
    · rw [List.find?_cons_of_pos _ hx] at h
      cases h
      exact ⟨hx, [], l, rfl, by simp⟩
    · rw [List.find?_cons_of_neg _ (by simpa using hx)] at h
      obtain ⟨hp, l₁, l₂, hsplit, hfirst⟩ := ih a h
      refine ⟨hp, x :: l₁, l₂, by rw [hsplit, List.cons_append], ?_⟩
      intro y hy
      rcases List.mem_cons.mp hy with hy | hy
      · subst hy; simpa using hx
      · exact hfirst y hy

/-- FAQ record on which the responder's selection and the FAQ matcher
disagree. -/
def faqHello : FAQ := ⟨"hello", "hi there", ""⟩

/-- **C2, counterexample.** For the mention text `"hello world"` and the
one-record FAQ set `[faqHello]`, the auto-responder's FAQ selection picks
the record (its question `"hello"` is a substring of the text), while the
§4.5 FAQ matcher returns no match (its combined score is `0.2 < 0.3`): the
responder's FAQ-selection step is not equivalent to the FAQ matcher. -/
theorem responder_matcher_disagree :
    selectFAQ [faqHello] "hello world" = some faqHello ∧
    findMatchingFAQ [faqHello] "hello world" = none := by
  exact ⟨by with_unfolding_all decide, by with_unfolding_all decide⟩

/-- **C2, amended.** The auto-responder's FAQ selection does not invoke the
§4.5 FAQ matcher: it selects the first FAQ, in iteration order, for which
some comma-delimited, trimmed, lower-cased, non-empty segment of the FAQ's
question text or of its keyword list is a substring of the lower-cased
mention text; the selected FAQ's answer is used verbatim as the response,
with the response-source string `"FAQ: "` followed by the FAQ's question;
when no FAQ satisfies that predicate, none is selected. -/
theorem responder_faq_selection (faqs : List FAQ) (text : String) :
    (∀ r, selectFAQ faqs text = some r →
      responderMatches text r = true ∧
      (∃ l₁ l₂, faqs = l₁ ++ r :: l₂ ∧
        ∀ f ∈ l₁, responderMatches text f = false) ∧
      processMentionFAQResponse faqs text =
        some (r.answer, "FAQ: " ++ r.question)) ∧
    (selectFAQ faqs text = none →
      ∀ f ∈ faqs, responderMatches text f = false) := by
  constructor
  · intro r hr
    obtain ⟨hp, l₁, l₂, hsplit, hfirst⟩ := find?_first _ faqs r hr
    exact ⟨hp, ⟨l₁, l₂, hsplit, hfirst⟩,
      by simp [processMentionFAQResponse, hr]⟩
  · intro hn f hf
    have := List.find?_eq_none.mp hn f hf
    simpa using this

/-- Witness for `responder_faq_selection` at the concrete mention
`"hello world"` and FAQ set `[faqHello]`. -/
theorem responder_faq_selection_witness :
    responderMatches "hello world" faqHello = true ∧
    (∃ l₁ l₂, [faqHello] = l₁ ++ faqHello :: l₂ ∧
      ∀ f ∈ l₁, responderMatches "hello world" f = false) ∧
    processMentionFAQResponse [faqHello] "hello world" =
      some (faqHello.answer, "FAQ: " ++ faqHello.question) :=
  (responder_faq_selection [faqHello] "hello world").1 faqHello
    (by with_unfolding_all decide)

/-! ### Lead discovery scoring (`discovery/discovery.py`) -/

/-- `LeadDiscovery.product_keywords`, the static domain keyword list. -/
def productKeywords : List String :=
  ["link in bio", "linktree", "link tree", "bio link",
   "link page", "link bio", "biolink", "linktree alternative",
   "link in bio tool", "creator tools", "social media links",
   "personal brand", "influencer", "content creator"]

/-- `LeadDiscovery._calculate_relevance_score`: `0` for empty text,
otherwise `+0.2` per domain keyword contained in the lower-cased text,
`+0.3` when the lower-cased query is contained in the lower-cased text,
`+0.1` more when the query occurs more than once (non-overlapping
left-to-right count, Python `str.count`), clamped to at most `1`. -/
def calculateRelevanceScore (text query : String) : ℚ :=
  if text = "" then 0
  else
    let textLower := lowerChars text
    let queryLower := lowerChars query
    let kwScore : ℚ :=
      ((productKeywords.filter
        (fun kw => pyContains textLower kw.toList)).length : ℚ) * (2/10)
    let withQuery : ℚ :=
      kwScore + (if pyContains textLower queryLower then 3/10 else 0)
    let withBoost : ℚ :=
      withQuery + (if 1 < pyCount textLower queryLower then 1/10 else 0)
    min withBoost 1

/-- The §4.6 scoring formula as the specification words it
(`min(1, 0.2·#keywords-present + 0.3·[query present] + 0.1·[query present
more than once])`), with occurrences counted left-to-right and
non-overlapping as in the source's `str.count`. Stated for comparison with
`calculateRelevanceScore`; unlike the source it has no special case for
empty text. -/
def relevanceScoreSpec (text query : String) : ℚ :=
  min 1
    (((productKeywords.filter
        (fun kw => pyContains (lowerChars text) kw.toList)).length : ℚ) * (2/10)
      + (if pyContains (lowerChars text) (lowerChars query) then 3/10 else 0)
      + (if 1 < pyCount (lowerChars text) (lowerChars query) then 1/10 else 0))

/-- **C7, counterexample.** For the empty result text and the empty query
the source returns `0` (the early `if not text` guard), while the claimed
formula yields `0.3` (the empty query is a substring of every text, and a
keyword count of zero contributes nothing): the claimed equality fails at
`text = ""`, `query = ""`. -/
theorem relevance_score_empty_text_diverges :
    calculateRelevanceScore "" "" = 0 ∧ relevanceScoreSpec "" "" = 3/10 ∧
    calculateRelevanceScore "" "" ≠ relevanceScoreSpec "" "" := by
  refine ⟨by with_unfolding_all decide, by with_unfolding_all decide,
    by with_unfolding_all decide⟩

/-- **C7, amended.** For every non-empty result text the relevance score
equals the claimed formula `min(1, 0.2·k + 0.3·[present] + 0.1·[repeated])`
(empty text short-circuits to score `0`); the score always lies in
`[0, 1]`; and for the text `"Check out this link in bio tool for
creators"` and query `"link in bio"` the score is at least `0.5` (it is
`0.7`: two keyword hits plus the query hit). -/
theorem relevance_score_spec_correct (text query : String) :
    (text ≠ "" →
      calculateRelevanceScore text query = relevanceScoreSpec text query) ∧
    calculateRelevanceScore "" query = 0 ∧
    0 ≤ calculateRelevanceScore text query ∧
    calculateRelevanceScore text query ≤ 1 ∧
    (1/2 : ℚ) ≤ calculateRelevanceScore
      "Check out this link in bio tool for creators" "link in bio" := by
  refine ⟨?_, rfl, ?_, ?_, by with_unfolding_all decide⟩
  · intro h
    simp only [calculateRelevanceScore, relevanceScoreSpec, if_neg h]
    rw [min_comm]
  · by_cases h : text = ""
    · subst h
      norm_num [calculateRelevanceScore]
    · simp only [calculateRelevanceScore, if_neg h]
      refine le_min ?_ (by norm_num)
      have h1 : (0:ℚ) ≤ ((productKeywords.filter
          (fun kw => pyContains (lowerChars text) kw.toList)).length : ℚ) * (2/10) :=
        mul_nonneg (Nat.cast_nonneg _) (by norm_num)
      have h2 : (0:ℚ) ≤
          (if pyContains (lowerChars text) (lowerChars query) then (3:ℚ)/10 else 0) := by
        split <;> norm_num
      have h3 : (0:ℚ) ≤
          (if 1 < pyCount (lowerChars text) (lowerChars query) then (1:ℚ)/10 else 0) := by
        split <;> norm_num
      linarith
  · by_cases h : text = ""
    · subst h
      norm_num [calculateRelevanceScore]
    · simp only [calculateRelevanceScore, if_neg h]
      exact min_le_right _ _

/-- Witness for `relevance_score_spec_correct`: the claimed formula agrees
with the source on the concrete §8 example text. -/
theorem relevance_score_spec_correct_witness :
    calculateRelevanceScore "Check out this link in bio tool for creators"
        "link in bio" =
      relevanceScoreSpec "Check out this link in bio tool for creators"
        "link in bio" :=
  (relevance_score_spec_correct
    "Check out this link in bio tool for creators" "link in bio").1
    (by decide)

/-! ### Lead discovery pipeline (`discovery/discovery.py`) -/

/-- A raw platform search result (one `adapter.search` row): username and
text snippet. -/
structure RawResult where
  username : String
  text : String
  deriving DecidableEq, Repr

/-- A scored lead dict as built in
`LeadDiscovery.search_leads_on_platform`. -/
structure LeadR where
  platform : String
  username : String
  text : String
  relevance_score : ℚ
  deriving DecidableEq, Repr

/-- `LeadDiscovery.search_leads_on_platform` (success path): score each raw
result of `adapter.search(query)` against the query. The adapter is
modelled as a results oracle; the `except` branch of the source returns
`[]`, a value the oracle can also produce. -/
def searchLeadsOnPlatform (adapterSearch : String → List RawResult)
    (platform query : String) : List LeadR :=
  (adapterSearch query).map (fun r =>
    ⟨platform, r.username, r.text, calculateRelevanceScore r.text query⟩)

/-- The search-query list built by `LeadDiscovery.search_leads`: the
caller-supplied query (when non-empty) followed by the first five domain
keywords. -/
def buildSearchQueries (query : String) : List String :=
  (if query = "" then [] else [query]) ++ productKeywords.take 5

/-- The collection loop of `LeadDiscovery.search_leads`: the first five
search queries, searched in order, results concatenated. -/
def gatherLeads (adapterSearch : String → List RawResult)
    (platform query : String) : List LeadR :=
  ((buildSearchQueries query).take 5).foldl
    (fun acc sq => acc ++ searchLeadsOnPlatform adapterSearch platform sq) []

/-- One iteration of the dedup loop of `LeadDiscovery.search_leads`: keep a
lead only when its username has not been seen and is non-empty. -/
def dedupStep (st : List String × List LeadR) (lead : LeadR) :
    List String × List LeadR :=
  if lead.username ∉ st.1 ∧ lead.username ≠ "" then
    (lead.username :: st.1, st.2 ++ [lead])
  else st

/-- The username-dedup pass of `LeadDiscovery.search_leads` (first
occurrence wins; empty usernames are dropped). -/
def dedupLeads (leads : List LeadR) : List LeadR :=
  (leads.foldl dedupStep ([], [])).2

/-- The descending relevance-score order of the final
`unique_leads.sort(key=..., reverse=True)`. -/
def leadGE (a b : LeadR) : Prop := b.relevance_score ≤ a.relevance_score

instance : DecidableRel leadGE := fun a b =>
  inferInstanceAs (Decidable (b.relevance_score ≤ a.relevance_score))

instance : IsTotal LeadR leadGE :=
  ⟨fun a b => le_total b.relevance_score a.relevance_score⟩

instance : IsTrans LeadR leadGE := ⟨fun _ _ _ h1 h2 => le_trans h2 h1⟩

/-- The dedup–sort–truncate pipeline ending `LeadDiscovery.search_leads`:
dedup by username, stable sort by descending relevance score (Python's
`list.sort` is stable, as is insertion sort for this total preorder),
truncate to the top 20. -/
def searchLeadsPipeline (leads : List LeadR) : List LeadR :=
  (List.insertionSort leadGE (dedupLeads leads)).take 20

/-- Outcome of the one `AIEngine.generate` call made (unguarded) by
`LeadDiscovery.search_leads` through `get_search_suggestions`: either the
suggestion text or a raised error (`generate` raises on a missing API key
and on any HTTP failure). -/
inductive AIOutcome where
  | ok (suggestions : String)
  | raise (msg : String)
  deriving DecidableEq, Repr

/-- `LeadDiscovery.search_leads`: the unguarded AI-suggestion call, then
query building, per-query searches, dedup, sort, truncation. A raised
error from the AI call propagates out of `search_leads`
(`Except.error`); on success the suggestions are unused by the source. -/
def searchLeads (ai : AIOutcome) (adapterSearch : String → List RawResult)
    (platform query : String) : Except String (List LeadR) :=
  match ai with
  | .raise msg => .error msg
  | .ok _ => .ok (searchLeadsPipeline (gatherLeads adapterSearch platform query))

/-- **C3.** Contrary to the specified graceful degradation, a failure of
the single Generation-Service call aborts the whole discovery run:
`search_leads` performs the call with no `try/except`, so the raised error
propagates and no lead list is returned — even though the static keyword
searches (here stubbed to return a scoring result) would have produced
leads. -/
theorem searchLeads_aborts_on_ai_failure :
    searchLeads (AIOutcome.raise "OpenRouter API key not configured")
      (fun _ => [⟨"creatorsue", "Check out this link in bio tool for creators"⟩])
      "twitter" "" =
    Except.error "OpenRouter API key not configured" := rfl

/-- Recursive description of the dedup fold (proof device; see
`dedupLeads_eq`). -/
def dedupAux (seen : List String) : List LeadR → List LeadR
  | [] => []
  | l :: rest =>
    if l.username ∉ seen ∧ l.username ≠ "" then
      l :: dedupAux (l.username :: seen) rest
    else dedupAux seen rest

theorem dedupLeads_foldl_eq (rest : List LeadR) :
    ∀ (seen : List String) (out : List LeadR),
      (rest.foldl dedupStep (seen, out)).2 = out ++ dedupAux seen rest := by
  induction rest with
  | nil => intro seen out; simp [dedupAux]
  | cons l rest ih =>
    intro seen out
    rw [List.foldl_cons]
    by_cases h : l.username ∉ seen ∧ l.username ≠ ""
    · rw [show dedupStep (seen, out) l = (l.username :: seen, out ++ [l]) by
        simp [dedupStep, h]]
      rw [ih, show dedupAux seen (l :: rest) = l :: dedupAux (l.username :: seen) rest by
        simp [dedupAux, h]]
      simp
    · rw [show dedupStep (seen, out) l = (seen, out) by simp [dedupStep, h]]
      rw [ih, show dedupAux seen (l :: rest) = dedupAux seen rest by
        simp only [dedupAux, if_neg h]]

theorem dedupLeads_eq (leads : List LeadR) :
    dedupLeads leads = dedupAux [] leads := by
  unfold dedupLeads
  rw [dedupLeads_foldl_eq]
  simp

/-- Every lead kept by the dedup pass comes from the raw list, has an
unseen, non-empty username, and is the first raw lead bearing its
username. -/
theorem dedupAux_mem_spec (rest : List LeadR) :
    ∀ (seen : List String) (x : LeadR), x ∈ dedupAux seen rest →
      x ∈ rest ∧ x.username ∉ seen ∧ x.username ≠ "" ∧
        rest.find? (fun y => y.username == x.username) = some x := by
  induction rest with
  | nil => intro seen x h; simp [dedupAux] at h
  | cons l rest ih =>
    intro seen x h
    by_cases hc : l.username ∉ seen ∧ l.username ≠ ""
    · rw [show dedupAux seen (l :: rest) = l :: dedupAux (l.username :: seen) rest by
        simp [dedupAux, hc]] at h
      rcases List.mem_cons.mp h with h | h
      · subst h
        refine ⟨List.mem_cons_self _ _, hc.1, hc.2, ?_⟩
        rw [List.find?_cons_of_pos _ (by simp)]
      · obtain ⟨hmem, hseen, hne, hfind⟩ := ih (l.username :: seen) x h
        have hx : x.username ≠ l.username := by
          intro he
          exact hseen (he ▸ List.mem_cons_self _ _)
        refine ⟨List.mem_cons_of_mem _ hmem,
          fun hs => hseen (List.mem_cons_of_mem _ hs), hne, ?_⟩
        rw [List.find?_cons_of_neg _ (by simpa using fun he => hx he.symm)]
        exact hfind
    · rw [show dedupAux seen (l :: rest) = dedupAux seen rest by
        simp only [dedupAux, if_neg hc]] at h
      obtain ⟨hmem, hseen, hne, hfind⟩ := ih seen x h
      have hx : l.username ≠ x.username := by
        rcases not_and_or.mp hc with hin | hemp
        · rw [not_not] at hin
          intro he
          exact hseen (he ▸ hin)
        · rw [not_not] at hemp
          intro he
          exact hne (he ▸ hemp)
      refine ⟨List.mem_cons_of_mem _ hmem, hseen, hne, ?_⟩
      rw [List.find?_cons_of_neg _ (by simpa using hx)]
      exact hfind

/-- The usernames kept by the dedup pass are pairwise distinct. -/
theorem dedupAux_nodup (rest : List LeadR) :
    ∀ seen : List String,
      ((dedupAux seen rest).map (fun l => l.username)).Nodup := by
  induction rest with
  | nil => intro seen; simp [dedupAux]
  | cons l rest ih =>
    intro seen
    by_cases hc : l.username ∉ seen ∧ l.username ≠ ""
    · rw [show dedupAux seen (l :: rest) = l :: dedupAux (l.username :: seen) rest by
        simp [dedupAux, hc]]
      rw [List.map_cons, List.nodup_cons]
      refine ⟨?_, ih _⟩
      intro hmem
      obtain ⟨x, hx, hxe⟩ := List.mem_map.mp hmem
      obtain ⟨_, hseen, _, _⟩ := dedupAux_mem_spec rest (l.username :: seen) x hx
      exact hseen (hxe ▸ List.mem_cons_self _ _)
    · rw [show dedupAux seen (l :: rest) = dedupAux seen rest by
        simp only [dedupAux, if_neg hc]]
      exact ih seen

/-- **C6.** Whatever raw results the per-query searches return, a lead
list returned by `search_leads` has pairwise-distinct usernames, each
returned lead being the first lead in collection order bearing its
username (dedup before sorting, first occurrence kept); the list is sorted
in descending order of relevance score and has at most 20 entries. -/
theorem searchLeads_dedup_sort_truncate (ai : AIOutcome)
    (adapterSearch : String → List RawResult) (platform query : String)
    (out : List LeadR)
    (h : searchLeads ai adapterSearch platform query = .ok out) :
    out.length ≤ 20 ∧
    (out.map (fun l => l.username)).Nodup ∧
    out.Sorted leadGE ∧
    ∀ l ∈ out, (gatherLeads adapterSearch platform query).find?
      (fun y => y.username == l.username) = some l := by
  cases ai with
  | raise msg => exact absurd h (by simp [searchLeads])
  | ok s =>
    have hout : out = searchLeadsPipeline (gatherLeads adapterSearch platform query) := by
      simpa [searchLeads] using h.symm
    subst hout
    unfold searchLeadsPipeline
    set raw := gatherLeads adapterSearch platform query with hraw
    refine ⟨List.length_take_le _ _, ?_, ?_, ?_⟩
    · have hperm : List.Perm
          ((List.insertionSort leadGE (dedupLeads raw)).map (fun l => l.username))
          ((dedupLeads raw).map (fun l => l.username)) :=
        (List.perm_insertionSort leadGE (dedupLeads raw)).map _
      have hnd : ((List.insertionSort leadGE (dedupLeads raw)).map
          (fun l => l.username)).Nodup :=
        hperm.nodup_iff.mpr (by rw [dedupLeads_eq]; exact dedupAux_nodup raw [])
      rw [List.map_take]
      exact hnd.sublist (List.take_sublist _ _)
    · exact (List.sorted_insertionSort leadGE (dedupLeads raw)).sublist
        (List.take_sublist _ _)
    · intro l hl
      have hl1 : l ∈ List.insertionSort leadGE (dedupLeads raw) :=
        (List.take_sublist _ _).mem hl
      have hl2 : l ∈ dedupLeads raw :=
        (List.perm_insertionSort leadGE (dedupLeads raw)).mem_iff.mp hl1
      rw [dedupLeads_eq] at hl2
      exact (dedupAux_mem_spec raw [] l hl2).2.2.2

/-- Concrete search oracle for the discovery witnesses: a duplicate
username and an empty username among the raw results. -/
def discoverySearchStub : String → List RawResult := fun _ =>
  [⟨"alice", "link in bio tools"⟩, ⟨"alice", "other"⟩, ⟨"", "anon"⟩,
   ⟨"bob", "hi"⟩]

/-- The lead list returned for `discoverySearchStub`. -/
def discoveryStubOut : List LeadR :=
  searchLeadsPipeline (gatherLeads discoverySearchStub "twitter" "")

/-- Witness for `searchLeads_dedup_sort_truncate` at the concrete oracle
`discoverySearchStub`. -/
theorem searchLeads_dedup_sort_truncate_witness :
    discoveryStubOut.length ≤ 20 ∧
    (discoveryStubOut.map (fun l => l.username)).Nodup ∧
    discoveryStubOut.Sorted leadGE := by
  have h := searchLeads_dedup_sort_truncate (AIOutcome.ok "")
    discoverySearchStub "twitter" "" discoveryStubOut rfl
  exact ⟨h.1, h.2.1, h.2.2.1⟩

/-- **C10.** Every lead returned by `search_leads` has a non-empty
username: raw results whose username is empty are dropped by the dedup
pass and never reach the returned list. -/
theorem searchLeads_no_empty_usernames (ai : AIOutcome)
    (adapterSearch : String → List RawResult) (platform query : String)
    (out : List LeadR)
    (h : searchLeads ai adapterSearch platform query = .ok out) :
    ∀ l ∈ out, l.username ≠ "" := by
  cases ai with
  | raise msg => exact absurd h (by simp [searchLeads])
  | ok s =>
    have hout : out = searchLeadsPipeline (gatherLeads adapterSearch platform query) := by
      simpa [searchLeads] using h.symm
    subst hout
    intro l hl
    have hl1 : l ∈ List.insertionSort leadGE
        (dedupLeads (gatherLeads adapterSearch platform query)) :=
      (List.take_sublist _ _).mem hl
    have hl2 : l ∈ dedupLeads (gatherLeads adapterSearch platform query) :=
      (List.perm_insertionSort leadGE _).mem_iff.mp hl1
    rw [dedupLeads_eq] at hl2
    exact (dedupAux_mem_spec _ [] l hl2).2.2.1

/-- The first retained lead for `discoverySearchStub`. -/
def discoveryStubLead : LeadR :=
  ⟨"twitter", "alice", "link in bio tools",
    calculateRelevanceScore "link in bio tools" "link in bio"⟩

/-- Witness for `searchLeads_no_empty_usernames` at the concrete oracle
`discoverySearchStub` and the concrete retained lead. -/
theorem searchLeads_no_empty_usernames_witness :
    discoveryStubLead.username ≠ "" :=
  searchLeads_no_empty_usernames (AIOutcome.ok "") discoverySearchStub
    "twitter" "" discoveryStubOut rfl discoveryStubLead
    (by with_unfolding_all decide)

/-! ### Post scheduler (`scheduler/scheduler.py`, `models/database.py`) -/

/-- A `models.Post` row as used by the scheduler (timestamps as `Nat`). -/
structure Post where
  id : Nat
  platform : String
  content : String
  status : String
  scheduledAt : Option Nat
  deriving DecidableEq, Repr

/-- The platform names registered in `platforms/__init__.py`. -/
def registeredPlatforms : List String :=
  ["twitter", "instagram", "facebook", "linkedin"]

/-- `PlatformRegistry.get_adapter` succeeds iff the lower-cased platform
name is registered; otherwise it raises `ValueError`. -/
def platformSupported (platform : String) : Bool :=
  (registeredPlatforms.map String.toList).contains (lowerChars platform)

/-- Outcome of one `adapter.post(content)` call: the returned boolean
(`TwitterAdapter.post` returns `False` on automation failure rather than
raising) or a raised exception. -/
inductive AdapterResult where
  | ok (success : Bool)
  | exn (msg : String)
  deriving DecidableEq, Repr

/-- `database.update_post(session, post_id, status=...)`: set the status
of the post with the given id; a no-op for absent ids (ids are unique in
the store, so the map touches at most one row). -/
def updatePost (posts : List Post) (postId : Nat) (status : String) :
    List Post :=
  posts.map (fun p => if p.id = postId then { p with status := status } else p)

/-- `database.log_activity`: append one activity-log entry. -/
def logActivity (log : List String) (entry : String) : List String :=
  log ++ [entry]

/-- `PostScheduler._publish_post`. The inner `try` marks the post
`"published"` (with a success activity entry) whenever `adapter.post` does
not raise — the returned boolean is ignored by the source — and marks it
`"failed"` with the reason logged when `adapter.post` raises; the outer
`try` catches the registry's unsupported-platform `ValueError` and marks
the post `"failed"` (no activity entry on that path). -/
def publishPostInternal (postResult : AdapterResult) (posts : List Post)
    (log : List String) (post : Post) : List Post × List String :=
  if platformSupported post.platform then
    match postResult with
    | .ok _ =>
      (updatePost posts post.id "published",
        logActivity log ("Published post " ++ toString post.id))
    | .exn msg =>
      (updatePost posts post.id "failed",
        logActivity log ("Failed to publish post " ++ toString post.id ++ ": " ++ msg))
  else
    (updatePost posts post.id "failed", log)

/-- `PostScheduler.publish_post` (the one-shot job body): look the post up
by id among all posts — with no status guard — and publish it; a missing
id is a logged no-op. -/
def publishPost (postResult : AdapterResult) (postId : Nat)
    (posts : List Post) (log : List String) : List Post × List String :=
  match posts.find? (fun p => p.id == postId) with
  | none => (posts, log)
  | some post => publishPostInternal postResult posts log post

/-- `PostScheduler.check_due_posts` (the recurring sweep): fetch the posts
with status `"scheduled"` and publish those whose `scheduled_at` is set
and has passed. The per-post adapter outcome is an oracle over the post
value. -/
def checkDuePosts (postResults : Post → AdapterResult) (now : Nat)
    (posts : List Post) (log : List String) : List Post × List String :=
  ((posts.filter (fun p => p.status == "scheduled")).filter
      (fun p => match p.scheduledAt with
        | some t => decide (t ≤ now)
        | none => false)).foldl
    (fun st p => publishPostInternal (postResults p) st.1 st.2 p) (posts, log)

/-- The status of the (first) post with the given id. -/
def statusOf (posts : List Post) (postId : Nat) : Option String :=
  (posts.find? (fun p => p.id == postId)).map (fun p => p.status)

/-- The concrete scheduled post used by the scheduler theorems. -/
def schedPost : Post := ⟨1, "twitter", "hello world", "scheduled", some 0⟩

/-- **C1.** When the adapter reports failure by returning `False`
(`TwitterAdapter.post`'s soft-fail path), `_publish_post` nevertheless
marks the post `"published"` and appends a success activity-log entry —
the returned boolean is ignored, so a soft-failed publish is recorded as a
success instead of marking the post `"failed"`. (The exception path does
mark the post `"failed"` with the reason logged, second conjunct.) -/
theorem publish_ignores_adapter_failure :
    publishPostInternal (AdapterResult.ok false) [schedPost] [] schedPost =
      ([⟨1, "twitter", "hello world", "published", some 0⟩],
        ["Published post 1"]) ∧
    publishPostInternal (AdapterResult.exn "Timeout 10000ms exceeded")
        [schedPost] [] schedPost =
      ([⟨1, "twitter", "hello world", "failed", some 0⟩],
        ["Failed to publish post 1: Timeout 10000ms exceeded"]) := by
  exact ⟨by with_unfolding_all decide, by with_unfolding_all decide⟩

/-- The sweep survives an unsupported platform name: the offending post is
marked `"failed"` and the remaining due posts are still published (the §8
example of the specification). -/
theorem sweep_continues_after_unsupported :
    statusOf (checkDuePosts (fun _ => AdapterResult.ok true) 10
      [⟨1, "myspace", "a", "scheduled", some 0⟩,
       ⟨2, "twitter", "b", "scheduled", some 0⟩] []).1 1 = some "failed" ∧
    statusOf (checkDuePosts (fun _ => AdapterResult.ok true) 10
      [⟨1, "myspace", "a", "scheduled", some 0⟩,
       ⟨2, "twitter", "b", "scheduled", some 0⟩] []).1 2 = some "published" := by
  exact ⟨by with_unfolding_all decide, by with_unfolding_all decide⟩

/-- The published post used by the monotonicity counterexample. -/
def publishedPost : Post := ⟨2, "twitter", "hi", "published", some 0⟩

/-- **C4.** `publish_post` has no status guard: fired for a post that is
already `"published"`, it attempts publication again, and when the attempt
raises it rewrites the status to `"failed"` — a transition out of the
terminal `"published"` state. (The sweep itself never selects such posts;
see `sweep_preserves_terminal_status`.) -/
theorem publishPost_exits_terminal_status :
    publishedPost.status = "published" ∧
    statusOf (publishPost (AdapterResult.exn "Timeout") 2
      [publishedPost] []).1 2 = some "failed" := by
  exact ⟨rfl, by with_unfolding_all decide⟩

/-- `update_post` for a different id does not change the status looked up
at `i`. -/
theorem statusOf_updatePost_ne (i j : Nat) (st : String) (h : j ≠ i) :
    ∀ posts : List Post, statusOf (updatePost posts j st) i = statusOf posts i := by
  intro posts
  induction posts with
  | nil => rfl
  | cons p posts ih =>
    show statusOf ((if p.id = j then { p with status := st } else p) ::
      updatePost posts j st) i = statusOf (p :: posts) i
    by_cases hp : p.id = j
    · rw [if_pos hp]
      have hpi : ¬ p.id = i := by rw [hp]; exact h
      unfold statusOf
      rw [List.find?_cons_of_neg _ (by simpa using hpi),
        List.find?_cons_of_neg _ (by simpa using hpi)]
      exact ih
    · rw [if_neg hp]
      by_cases hpi : p.id = i
      · unfold statusOf
        rw [List.find?_cons_of_pos _ (by simpa using hpi),
          List.find?_cons_of_pos _ (by simpa using hpi)]
      · unfold statusOf
        rw [List.find?_cons_of_neg _ (by simpa using hpi),
          List.find?_cons_of_neg _ (by simpa using hpi)]
        exact ih

/-- Under pairwise-distinct ids, two rows of the store with the same id
are the same row. -/
theorem post_eq_of_id_eq {a b : Post} {posts : List Post}
    (huniq : posts.Pairwise (fun x y => x.id ≠ y.id))
    (ha : a ∈ posts) (hb : b ∈ posts) (hid : a.id = b.id) : a = b := by
  induction posts with
  | nil => cases ha
  | cons p posts ih =>
    rcases List.pairwise_cons.mp huniq with ⟨hp, htail⟩
    rcases List.mem_cons.mp ha with ha1 | ha1 <;>
      rcases List.mem_cons.mp hb with hb1 | hb1
    · rw [ha1, hb1]
    · subst ha1; exact absurd hid (hp b hb1)
    · subst hb1; exact absurd hid.symm (hp a ha1)
    · exact ih htail ha1 hb1

/-- Publishing a list of due posts none of which carries id `i` leaves the
status recorded at `i` unchanged. -/
theorem publish_fold_preserves (postResults : Post → AdapterResult) (i : Nat) :
    ∀ (due : List Post) (st : List Post × List String),
      (∀ p ∈ due, p.id ≠ i) →
      statusOf (due.foldl
        (fun st p => publishPostInternal (postResults p) st.1 st.2 p) st).1 i =
        statusOf st.1 i := by
  intro due
  induction due with
  | nil => intro st _; rfl
  | cons p due ih =>
    intro st h
    rw [List.foldl_cons]
    rw [ih _ (fun q hq => h q (List.mem_cons_of_mem _ hq))]
    have hp : p.id ≠ i := h p (List.mem_cons_self _ _)
    unfold publishPostInternal
    split
    · split <;> exact statusOf_updatePost_ne i p.id _ hp st.1
    · exact statusOf_updatePost_ne i p.id _ hp st.1

/-- The recurring sweep selects only posts in status `"scheduled"`, so it
never changes the status of a post recorded as `"published"` or
`"failed"` (the half of the monotonicity claim the source does satisfy). -/
theorem sweep_preserves_terminal_status (postResults : Post → AdapterResult)
    (now : Nat) (posts : List Post) (log : List String) (i : Nat) (s : String)
    (huniq : posts.Pairwise (fun a b => a.id ≠ b.id))
    (hs : statusOf posts i = some s)
    (hterm : s = "published" ∨ s = "failed") :
    statusOf (checkDuePosts postResults now posts log).1 i = some s := by
  obtain ⟨p0, hfind, hstat⟩ := Option.map_eq_some'.mp hs
  have hp0mem : p0 ∈ posts := List.mem_of_find?_eq_some hfind
  have hp0id : p0.id = i := by simpa using List.find?_some hfind
  unfold checkDuePosts
  rw [publish_fold_preserves]
  · exact hs
  · intro p hp hpe
    have hp1 := List.mem_filter.mp hp
    have hp2 := List.mem_filter.mp hp1.1
    have hsched : p.status = "scheduled" := by simpa using hp2.2
    have hpp0 : p = p0 :=
      post_eq_of_id_eq huniq hp2.1 hp0mem (by rw [hpe, hp0id])
    rw [hpp0, hstat] at hsched
    rcases hterm with ht | ht <;> rw [ht] at hsched <;> exact absurd hsched (by decide)

/-! ### One-shot job store (`PostScheduler.schedule_post` / `cancel`) -/

/-- An APScheduler job as used by `PostScheduler`: id string and run date
(ids are unique keys of the job store). -/
structure Job where
  id : String
  runDate : Nat
  deriving DecidableEq, Repr

/-- The one-shot job id `f"publish_post_{post_id}"`. -/
def jobId (postId : Nat) : String := "publish_post_" ++ toString postId

/-- `scheduler.remove_job(job_id)` under the unique-id invariant: drop the
job with the given id. -/
def removeJob (jobs : List Job) (jid : String) : List Job :=
  jobs.filter (fun j => !(j.id == jid))

/-- `scheduler.add_job(..., id=jid, replace_existing=True)`: replace the
job with the same id in place, else append. -/
def addJob (jobs : List Job) (j : Job) : List Job :=
  if jobs.any (fun x => x.id == j.id) then
    jobs.map (fun x => if x.id == j.id then j else x)
  else jobs ++ [j]

/-- `PostScheduler.schedule_post`: remove any existing one-shot job for
the post id, then add the new `DateTrigger` job. -/
def schedulePost (jobs : List Job) (postId scheduledAt : Nat) : List Job :=
  addJob
    (if jobs.any (fun j => j.id == jobId postId) then
      removeJob jobs (jobId postId)
    else jobs)
    ⟨jobId postId, scheduledAt⟩

/-- `PostScheduler.cancel_scheduled_post`: remove the job when present;
the `except: pass` makes a missing job a no-op. -/
def cancelScheduledPost (jobs : List Job) (postId : Nat) : List Job :=
  removeJob jobs (jobId postId)

/-- One scheduler-API call affecting the one-shot job store. -/
inductive SchedOp where
  | schedule (postId scheduledAt : Nat)
  | cancel (postId : Nat)
  deriving DecidableEq, Repr

/-- Apply one scheduler call to the job store. -/
def applySchedOp (jobs : List Job) : SchedOp → List Job
  | .schedule postId t => schedulePost jobs postId t
  | .cancel postId => cancelScheduledPost jobs postId

/-- The one-shot jobs outstanding for a given post id. -/
def jobsFor (jobs : List Job) (postId : Nat) : List Job :=
  jobs.filter (fun j => j.id == jobId postId)

theorem jobsFor_removeJob (jid : String) (P : Nat) (jobs : List Job) :
    jobsFor (removeJob jobs jid) P =
      if jid = jobId P then [] else jobsFor jobs P := by
  unfold jobsFor removeJob
  rw [List.filter_filter]
  by_cases h : jid = jobId P
  · rw [if_pos h, List.filter_eq_nil_iff]
    intro j _ hc
    rw [Bool.and_eq_true] at hc
    have h1 : j.id = jobId P := by simpa using hc.1
    have h2 : ¬ j.id = jid := by simpa using hc.2
    exact h2 (h1.trans h.symm)
  · rw [if_neg h]
    apply List.filter_congr
    intro j _
    by_cases hjP : j.id = jobId P
    · have hne : ¬ j.id = jid := fun he => h (he.symm.trans hjP)
      have h1 : (j.id == jobId P) = true := by simpa using hjP
      have h2 : (j.id == jid) = false := by simpa using hne
      rw [h1, h2]
      rfl
    · simp [hjP]

theorem jobsFor_schedulePost (q t P : Nat) (jobs : List Job) :
    jobsFor (schedulePost jobs q t) P =
      if jobId q = jobId P then [⟨jobId q, t⟩] else jobsFor jobs P := by
  unfold schedulePost
  set jobs1 := (if jobs.any (fun j => j.id == jobId q) then
      removeJob jobs (jobId q)
    else jobs) with hjobs1
  have hnone : jobs1.any (fun x => x.id == jobId q) = false := by
    rw [hjobs1]
    split
    · rw [List.any_eq_false]
      intro j hj
      unfold removeJob at hj
      have := List.of_mem_filter hj
      simpa using this
    · rename_i hany
      rw [List.any_eq_false]
      intro j hj hc
      exact hany (List.any_eq_true.mpr ⟨j, hj, hc⟩)
  have hjobsFor1 : jobsFor jobs1 P =
      if jobId q = jobId P then [] else jobsFor jobs P := by
    rw [hjobs1]
    split
    · exact jobsFor_removeJob (jobId q) P jobs
    · rename_i hany
      by_cases heq : jobId q = jobId P
      · rw [if_pos heq]
        unfold jobsFor
        rw [List.filter_eq_nil_iff]
        intro j hj hc
        refine hany (List.any_eq_true.mpr ⟨j, hj, ?_⟩)
        rw [← heq] at hc
        exact hc
      · rw [if_neg heq]
  unfold addJob
  rw [hnone, if_neg Bool.false_ne_true]
  unfold jobsFor at hjobsFor1 ⊢
  rw [List.filter_append, hjobsFor1]
  by_cases h : jobId q = jobId P
  · rw [if_pos h, if_pos h]
    simp [h]
  · rw [if_neg h, if_neg h]
    have h3 : ((Job.mk (jobId q) t).id == jobId P) = false := by simpa using h
    simp [h3]

/-- **C8.** Over every sequence of `schedule_post` and
`cancel_scheduled_post` calls, at most one one-shot publish job per post
id is outstanding (remove-then-add makes re-scheduling replace the prior
job); and after scheduling post `P` twice exactly one job for `P`
remains, carrying the most recent fire-at timestamp. -/
theorem scheduler_one_job_per_post (P : Nat) :
    (∀ (ops : List SchedOp) (jobs : List Job),
      (jobsFor jobs P).length ≤ 1 →
      (jobsFor (ops.foldl applySchedOp jobs) P).length ≤ 1) ∧
    (∀ (jobs : List Job) (t₁ t₂ : Nat),
      jobsFor (schedulePost (schedulePost jobs P t₁) P t₂) P =
        [⟨jobId P, t₂⟩]) := by
  constructor
  · intro ops
    induction ops with
    | nil => intro jobs h; exact h
    | cons op ops ih =>
      intro jobs h
      rw [List.foldl_cons]
      apply ih
      cases op with
      | schedule q t =>
        show (jobsFor (schedulePost jobs q t) P).length ≤ 1
        rw [jobsFor_schedulePost]
        split
        · simp
        · exact h
      | cancel q =>
        show (jobsFor (cancelScheduledPost jobs q) P).length ≤ 1
        unfold cancelScheduledPost
        rw [jobsFor_removeJob]
        split
        · simp
        · exact h
  · intro jobs t₁ t₂
    rw [jobsFor_schedulePost, if_pos rfl]

/-- Witness for `scheduler_one_job_per_post`: a concrete
schedule–reschedule–cancel sequence from the empty store leaves at most
one job for post 7. -/
theorem scheduler_one_job_per_post_witness :
    (jobsFor (([SchedOp.schedule 7 100, SchedOp.schedule 7 200,
      SchedOp.cancel 3]).foldl applySchedOp []) 7).length ≤ 1 :=
  (scheduler_one_job_per_post 7).1
    [SchedOp.schedule 7 100, SchedOp.schedule 7 200, SchedOp.cancel 3] []
    (by decide)

/-! ### Twitter adapter login (`platforms/twitter.py`, `platforms/base.py`) -/

/-- Success or failure of each fallible automation step of
`TwitterAdapter.login`: browser init/navigation/username entry; the inner
password-selector wait; its retry fallback; the final submit plus
home-page wait; `save_cookies`. -/
structure LoginEnv where
  navigationOk : Bool
  passwordFieldOk : Bool
  passwordRetryOk : Bool
  submitOk : Bool
  saveCookiesOk : Bool
  deriving DecidableEq, Repr

/-- The adapter session state relevant to login: `is_logged_in` and
whether the session blob has been persisted by `save_cookies`. -/
structure AdapterState where
  isLoggedIn : Bool
  cookiesSaved : Bool
  deriving DecidableEq, Repr

/-- The body of `TwitterAdapter.login`'s outer `try` block: a failing step
raises (`Except.error` carries the state at the raise point; `is_logged_in`
is only assigned after `save_cookies` succeeds); the inner `try` falls
back to the retry flow when the password selector is not found the first
time. -/
def twitterLoginBody (env : LoginEnv) (s : AdapterState) :
    Except (String × AdapterState) AdapterState :=
  if !env.navigationOk then .error ("navigation", s)
  else if env.passwordFieldOk || env.passwordRetryOk then
    if !env.submitOk then .error ("submit", s)
    else if !env.saveCookiesOk then .error ("save_cookies", s)
    else .ok { s with cookiesSaved := true, isLoggedIn := true }
  else .error ("password selector", s)

/-- `TwitterAdapter.login`: the catch-all `except Exception` converts any
raise into the boolean result `False`; the embedding is a total function,
so nothing escapes the adapter boundary. -/
def twitterLogin (env : LoginEnv) (s : AdapterState) : Bool × AdapterState :=
  match twitterLoginBody env s with
  | .ok s1 => (true, s1)
  | .error e => (false, e.2)

/-- **C9.** `login()` never raises past the adapter boundary (it is a
total boolean-returning function of the automation outcomes): started from
the logged-out state, on success it has persisted the session blob and is
logged in; on any automation failure it returns `False` and the state
stays logged out. -/
theorem twitter_login_boundary (env : LoginEnv) (s : AdapterState)
    (hs : s.isLoggedIn = false) :
    ((twitterLogin env s).1 = true →
      (twitterLogin env s).2.isLoggedIn = true ∧
      (twitterLogin env s).2.cookiesSaved = true) ∧
    ((twitterLogin env s).1 = false →
      (twitterLogin env s).2.isLoggedIn = false) := by
  rcases env with ⟨nav, pf, pr, sub, sc⟩
  cases nav <;> cases pf <;> cases pr <;> cases sub <;> cases sc <;>
    simp [twitterLogin, twitterLoginBody, hs]

/-- Witness for `twitter_login_boundary`: a successful retry-path login
ends logged-in, a failed navigation ends logged-out. -/
theorem twitter_login_boundary_witness :
    (twitterLogin ⟨true, false, true, true, true⟩ ⟨false, false⟩).2.isLoggedIn = true ∧
    (twitterLogin ⟨false, true, true, true, true⟩ ⟨false, false⟩).2.isLoggedIn = false :=
  ⟨((twitter_login_boundary ⟨true, false, true, true, true⟩ ⟨false, false⟩ rfl).1 rfl).1,
    (twitter_login_boundary ⟨false, true, true, true, true⟩ ⟨false, false⟩ rfl).2 rfl⟩

end SocialMediaAgent
